import Mathlib

/-!
Verification development for the `mail_sorter` SMTP e-mail verifier.

This file shallowly embeds the Go verifier core (`src/unnamed/part_007`:
the `SMTPVerifier` type and its pipeline `Verify` → MX lookup → SMTP
handshake with retries → `classifySMTPResponse` → `detectCatchAll` →
result caching) and proves properties of the embedding.

Modelling conventions:

* Go strings are Lean `String`s; byte lengths (`len` in Go) are
  `String.utf8ByteSize`.
* Go `float64` confidence constants are embedded as exact rationals
  (`98/100` for `0.98`, and so on); they are only ever stored and
  compared, never computed with, so the embedding is exact.
* All external effects (Redis caches, DNS, SMTP dials, rate limiting,
  the process clock used for random probe local-parts, SHA-256) are
  supplied by a `World` record of response functions: each embedded
  function takes the `World` and returns its value together with an
  `Effects` record listing the SMTP probes it issued and the cache
  writes it performed.  A fixed `World` models "the same external
  responses": each SMTP endpoint gives one fixed answer per
  (address, MX host) pair.
* Wall-clock fields of the Go result (`ValidationTimeMs`, `CheckedAt`)
  and the cache TTL/timeout durations are not modelled; nothing below
  depends on real time.
* `context.Context` is modelled by `World.ctxDone`/`World.ctxErr`: the
  flag says whether the context is already cancelled or expired when a
  suspension point (the retry back-off `select`) consults it.
-/

namespace MailSorter

/-! ### Character and string helpers (Go `strings` / `unicode` subset) -/

/-- Whitespace stripped by Go `strings.TrimSpace`: space, `\t`, `\n`,
`\v`, `\f`, `\r` (the ASCII part of `unicode.IsSpace`; the rare
non-ASCII Unicode space characters are not modelled). -/
def isSpaceGo (c : Char) : Bool :=
  c.toNat = 32 || c.toNat = 9 || c.toNat = 10 || c.toNat = 11 ||
  c.toNat = 12 || c.toNat = 13

/-- ASCII lower-casing of one character, as `strings.ToLower` acts on
ASCII input (Unicode case folding beyond ASCII is not modelled). -/
def lowerChar (c : Char) : Char :=
  if 65 ≤ c.toNat ∧ c.toNat ≤ 90 then Char.ofNat (c.toNat + 32) else c

/-- `strings.ToLower` (ASCII fragment). -/
def toLowerGo (s : String) : String :=
  String.mk (s.data.map lowerChar)

/-- `strings.TrimSpace`: drop whitespace from both ends. -/
def trimSpaceGo (s : String) : String :=
  String.mk (((s.data.dropWhile isSpaceGo).reverse.dropWhile isSpaceGo).reverse)

/-- The normalisation performed at the top of `Verify`:
`strings.ToLower(strings.TrimSpace(email))`. -/
def normalizeGo (s : String) : String :=
  toLowerGo (trimSpaceGo s)

/-- `strings.TrimSuffix(h, ".")`: remove one trailing dot if present. -/
def trimSuffixDot (s : String) : String :=
  match s.data.reverse with
  | '.' :: rest => String.mk rest.reverse
  | _ => s

/-- `strings.Contains(s, sub)`. -/
def containsSubstr (s sub : String) : Bool :=
  go s.data sub.data
where
  go : List Char → List Char → Bool
    | [], sub => sub.isEmpty
    | c :: cs, sub => sub.isPrefixOf (c :: cs) || go cs sub

/-- Digit accumulator for `parseLeadingInt`. -/
def digitsVal : List Char → Nat → Nat
  | [], acc => acc
  | c :: cs, acc => if c.isDigit then digitsVal cs (acc * 10 + (c.toNat - 48)) else acc

/-- The integer scanned by `fmt.Sscanf(s, "%d", &code)`: skip leading
spaces, then read decimal digits; `code` keeps its zero value when no
digits are found.  A leading minus sign is modelled as a failed parse
(result 0); the Go scanner would produce a negative value there, which
the caller `parseSMTPError` rejects by its `code >= 100` bound exactly
as it rejects 0. -/
def parseLeadingInt (l : List Char) : Nat :=
  digitsVal (l.dropWhile (fun c => c.toNat = 32)) 0

/-- Split a string at every `'@'`, Go `strings.Split(s, "@")`. -/
def splitOnAtAux : List Char → List Char → List (List Char)
  | [], acc => [acc.reverse]
  | c :: cs, acc =>
    if c = '@' then acc.reverse :: splitOnAtAux cs [] else splitOnAtAux cs (c :: acc)

/-- `strings.Split(s, "@")`. -/
def goSplitAt (s : String) : List String :=
  (splitOnAtAux s.data []).map String.mk

/-! ### Data model (types of `part_007`) -/

/-- `ValidationStatus`: the five Go status constants. -/
inductive ValidationStatus where
  | valid
  | invalid
  | catchAll
  | unknown
  | risky
deriving DecidableEq, Repr

/-- `MXRecord{Exchange, Priority}`; the Go `uint16` priority is a `Nat`
(DNS only ever supplies values below 2^16, and the code only compares
priorities, so the width never matters). -/
structure MXRecord where
  Exchange : String
  Priority : Nat
deriving DecidableEq, Repr

/-- `ValidationResult`, minus the two wall-clock fields
(`ValidationTimeMs`, `CheckedAt`), which are not modelled. -/
structure ValidationResult where
  Email : String
  EmailHash : String
  Domain : String
  Status : ValidationStatus
  Reason : String
  Confidence : ℚ
  SMTPCode : Nat
  SMTPResponse : String
  MXHost : String
  MXRecords : List MXRecord
  IsCatchAll : Bool
  IsDisposable : Bool
deriving DecidableEq, Repr

/-- `DomainMetadata`; only `IsDisposable` is ever read by the verifier
(`Verify` line 175), the remaining fields are never consulted, so only
the catch-all flag is kept alongside for shape. -/
structure DomainMetadata where
  IsCatchAll : Option Bool := none
  IsDisposable : Bool
deriving DecidableEq, Repr

/-- Identity of the two sentinel `context` errors used by
`errors.Is(err, ...)` in `isRetryableError`. -/
inductive GoErrKind where
  | deadlineExceeded
  | canceled
  | other
deriving DecidableEq, Repr

/-- A Go `error`: its `errors.Is` identity and its `Error()` string. -/
structure GoError where
  kind : GoErrKind
  msg : String
deriving DecidableEq, Repr

/-- The configuration fields of `Config` that the embedded code paths
read.  Timeout and TTL durations are used only against the real clock
and are not modelled.  `RetryBackoffNs` is `RetryBackoff` in
nanoseconds (`time.Duration`'s unit). -/
structure Config where
  MaxRetries : Nat
  RetryBackoffNs : Nat
  RetryBackoffFactor : ℚ
  EnableCatchAllDetection : Bool
  CatchAllProbeCount : Nat

/-- `DefaultConfig()` (the modelled fields). -/
def DefaultConfig : Config :=
  { MaxRetries := 3
    RetryBackoffNs := 2000000000
    RetryBackoffFactor := 2
    EnableCatchAllDetection := true
    CatchAllProbeCount := 2 }

/-- The external world: one fixed response per query.  `Option`/`Except`
`none`/`error` stand for Redis misses (or Redis errors: the code treats
the two alike on every read) and failed lookups. -/
structure World where
  /-- `getCachedResult`: result cache content by e-mail hash. -/
  resultCache : String → Option ValidationResult
  /-- `getCachedMXRecords`: MX cache content by domain. -/
  mxCache : String → Option (List MXRecord)
  /-- `net.LookupMX`: raw `(Host, Pref)` answers, or the DNS error. -/
  dns : String → Except GoError (List (String × Nat))
  /-- `getDomainMetadata` by domain. -/
  domainMeta : String → Option DomainMetadata
  /-- `getCachedCatchAllStatus` by domain. -/
  catchAllCache : String → Option Bool
  /-- `smtpHandshake email mxHost`: the `(code, response)` recorded at
  RCPT, or the error the handshake returned. -/
  smtp : String → String → Except GoError (Nat × String)
  /-- `waitForRateLimit domain mxHost`: `some e` when the wait is cut
  short by context cancellation, else `none`. -/
  rateLimit : String → String → Option GoError
  /-- Whether `ctx.Done()` fires when the retry back-off selects on it. -/
  ctxDone : Bool
  /-- `ctx.Err()` for a done context. -/
  ctxErr : GoError
  /-- The random local-part generated for catch-all probe `i`
  (`fmt.Sprintf("probeverify%d%d", time.Now().UnixNano(), i)`). -/
  probeLocal : Nat → String
  /-- Hex SHA-256 digest, kept abstract: the code only compares and
  stores digests of equal/distinct strings. -/
  sha256hex : String → String

/-- Externally visible writes and probes of one verification. -/
structure Effects where
  /-- `(email, mxHost)` of every `smtpHandshake` connection issued. -/
  probes : List (String × String) := []
  /-- `cacheResult` writes `(emailHash, result)`. -/
  resultWrites : List (String × ValidationResult) := []
  /-- `cacheCatchAllStatus` writes `(domain, isCatchAll)`. -/
  catchAllWrites : List (String × Bool) := []
deriving DecidableEq, Repr

/-- Decidable equality of `Except` results (not derived by core for
`Except`, needed to evaluate lookup outcomes on concrete worlds). -/
instance exceptDecEq {α β : Type} [DecidableEq α] [DecidableEq β] :
    DecidableEq (Except α β) := fun a b =>
  match a, b with
  | Except.error x, Except.error y =>
    if h : x = y then isTrue (by rw [h])
    else isFalse (fun hc => h (Except.error.inj hc))
  | Except.error _, Except.ok _ => isFalse (fun hc => Except.noConfusion hc)
  | Except.ok _, Except.error _ => isFalse (fun hc => Except.noConfusion hc)
  | Except.ok x, Except.ok y =>
    if h : x = y then isTrue (by rw [h])
    else isFalse (fun hc => h (Except.ok.inj hc))

/-- Sequential composition of effect logs. -/
def Effects.app (a b : Effects) : Effects :=
  { probes := a.probes ++ b.probes
    resultWrites := a.resultWrites ++ b.resultWrites
    catchAllWrites := a.catchAllWrites ++ b.catchAllWrites }

/-! ### Pure helpers of `part_007` -/

/-- `hashEmail`: SHA-256 of the lower-cased address. -/
def hashEmail (w : World) (email : String) : String :=
  w.sha256hex (toLowerGo email)

/-- `createResult` (the wall-clock fields are dropped; `IsCatchAll` and
`IsDisposable` get their Go zero value `false`, exactly as in the Go
struct literal). -/
def createResult (email emailHash domain : String) (status : ValidationStatus)
    (reason : String) (confidence : ℚ) (smtpCode : Nat)
    (smtpResponse mxHost : String) (mxRecords : List MXRecord) : ValidationResult :=
  { Email := email
    EmailHash := emailHash
    Domain := domain
    Status := status
    Reason := reason
    Confidence := confidence
    SMTPCode := smtpCode
    SMTPResponse := smtpResponse
    MXHost := mxHost
    MXRecords := mxRecords
    IsCatchAll := false
    IsDisposable := false }

/-- Local-part characters of the Go regex: `[a-zA-Z0-9._%+\-]`. -/
def isLocalChar (c : Char) : Bool :=
  c.isAlphanum || c = '.' || c = '_' || c = '%' || c = '+' || c = '-'

/-- Domain characters of the Go regex: `[a-zA-Z0-9.\-]`. -/
def isDomainChar (c : Char) : Bool :=
  c.isAlphanum || c = '.' || c = '-'

/-- Bool form of "is not a dot". -/
def notDot (c : Char) : Bool :=
  !(decide (c = '.'))

/-- Matcher for the part after `@` of the Go regex:
`[a-zA-Z0-9.\-]+\.[a-zA-Z]{2,}$`.  A matching split
`l = body ++ "." ++ tld` must have a dot-free, all-letter `tld`
running to the end of the string, so the split dot is necessarily the
last dot of `l`; the matcher therefore looks (from the reversed
string) at the segment after the last dot and the segment before it,
which is exactly the language of the regex fragment. -/
def domainPartMatch (l : List Char) : Bool :=
  match l.reverse.dropWhile notDot with
  | [] => false
  | c :: before =>
    decide (c = '.') && !before.isEmpty && before.all isDomainChar &&
    decide (2 ≤ (l.reverse.takeWhile notDot).length) &&
    (l.reverse.takeWhile notDot).all Char.isAlpha

/-- `emailRegex.MatchString` for
`^[a-zA-Z0-9._%+\-]+@[a-zA-Z0-9.\-]+\.[a-zA-Z]{2,}$`.  Since `@` is not
a local-part character, a match must split the string at the first
non-local character, which has to be an `@`; the local run before it
must be non-empty and the tail must match the domain fragment. -/
def emailRegexMatch (s : String) : Bool :=
  match s.data.dropWhile isLocalChar with
  | [] => false
  | c :: rest =>
    decide (c = '@') && !(s.data.takeWhile isLocalChar).isEmpty && domainPartMatch rest

/-- `isValidEmailSyntax`: the regex plus the 320-byte bound. -/
def isValidEmailSyntax (email : String) : Bool :=
  emailRegexMatch email && decide (email.utf8ByteSize ≤ 320)

/-- `parseSMTPError`: extract a leading SMTP code from an error string. -/
def parseSMTPError (msg : String) : Nat × String :=
  if 3 ≤ msg.utf8ByteSize then
    let code := parseLeadingInt msg.data
    if 100 ≤ code ∧ code < 600 then (code, msg) else (0, msg)
  else (0, msg)

/-- `classifySMTPResponse`: the `switch` over the RCPT reply code.  The
response text is accepted and ignored exactly as in Go. -/
def classifySMTPResponse (code : Nat) (_response : String) :
    ValidationStatus × String × ℚ :=
  if code = 250 ∨ code = 251 then
    (ValidationStatus.valid, "mailbox_exists", 98/100)
  else if code = 550 ∨ code = 551 ∨ code = 553 then
    (ValidationStatus.invalid, "mailbox_not_found", 95/100)
  else if code = 450 ∨ code = 451 ∨ code = 452 then
    (ValidationStatus.unknown, "temporary_failure", 3/10)
  else if code = 421 then
    (ValidationStatus.unknown, "rate_limited", 2/10)
  else if 500 ≤ code then
    (ValidationStatus.invalid, "smtp_error_" ++ toString code, 7/10)
  else
    (ValidationStatus.unknown, "unknown_response", 1/10)

/-- `isRetryableError`. -/
def isRetryableError (e : GoError) : Bool :=
  decide (e.kind = GoErrKind.deadlineExceeded) ||
  decide (e.kind = GoErrKind.canceled) ||
  containsSubstr e.msg "timeout" ||
  containsSubstr e.msg "connection refused" ||
  containsSubstr e.msg "temporary failure" ||
  (decide (400 ≤ (parseSMTPError e.msg).1) && decide ((parseSMTPError e.msg).1 < 500))

/-- The back-off duration computed before retry `attempt` (0-based):
`time.Duration(float64(RetryBackoff) * float64(attempt+1) * RetryBackoffFactor)`,
in nanoseconds.  The `time.Duration` conversion truncates; the floor is
exact for the integral values at issue. -/
def retryBackoffNs (cfg : Config) (attempt : Nat) : ℤ :=
  ⌊(cfg.RetryBackoffNs : ℚ) * ((attempt : ℚ) + 1) * cfg.RetryBackoffFactor⌋

/-! ### MX lookup and ordering -/

/-- One outer-loop step of `sortMXRecords`' exchange sort: walk the
remainder with the current occupant of slot `i`, swapping whenever
`records[i].Priority > records[j].Priority`.  Returns the final
occupant of slot `i` and the remainder as left by the swaps. -/
def selPass (x : MXRecord) : List MXRecord → MXRecord × List MXRecord
  | [] => (x, [])
  | y :: ys =>
    if y.Priority < x.Priority then
      ((selPass y ys).1, x :: (selPass y ys).2)
    else
      ((selPass x ys).1, y :: (selPass x ys).2)

/-- Fuel-indexed driver for the outer loop of `sortMXRecords`. -/
def sortMXAux : Nat → List MXRecord → List MXRecord
  | 0, _ => []
  | _ + 1, [] => []
  | n + 1, x :: xs => (selPass x xs).1 :: sortMXAux n (selPass x xs).2

/-- `sortMXRecords`: the in-place exchange sort of `part_007`
(`for i … for j > i … swap if records[i].Priority > records[j].Priority`),
expressed functionally; the fuel equals the list length, which each
`selPass` preserves. -/
def sortMXRecords (l : List MXRecord) : List MXRecord :=
  sortMXAux l.length l

/-- The DNS branch of `getMXRecords`: `net.LookupMX`, strip one trailing
dot from each host, sort.  (The write-back to the MX cache has no
further observable effect on the embedded paths and is not logged.) -/
def lookupMXAndSort (w : World) (domain : String) : Except GoError (List MXRecord) :=
  match w.dns domain with
  | Except.error e => Except.error e
  | Except.ok mxs =>
    Except.ok (sortMXRecords (mxs.map (fun m =>
      { Exchange := trimSuffixDot m.1, Priority := m.2 })))

/-- `getMXRecords`: serve a non-empty cached answer, else query DNS. -/
def getMXRecords (w : World) (domain : String) : Except GoError (List MXRecord) :=
  match w.mxCache domain with
  | some cached => if 0 < cached.length then Except.ok cached else lookupMXAndSort w domain
  | none => lookupMXAndSort w domain

/-! ### Catch-all detection -/

/-- The probe address `probeverify…i@domain` for probe `i`. -/
def probeEmail (w : World) (domain : String) (i : Nat) : String :=
  w.probeLocal i ++ "@" ++ domain

/-- Whether probe `i` counts into `acceptCount`:
`err == nil && (smtpCode == 250 || smtpCode == 251)`. -/
def probeAccepted (w : World) (domain mxHost : String) (i : Nat) : Bool :=
  match w.smtp (probeEmail w domain i) mxHost with
  | Except.ok (code, _) => decide (code = 250 ∨ code = 251)
  | Except.error _ => false

/-- The `acceptCount` accumulated over the `CatchAllProbeCount` probes. -/
def catchAllAcceptCount (cfg : Config) (w : World) (domain mxHost : String) : Nat :=
  ((List.range cfg.CatchAllProbeCount).filter (probeAccepted w domain mxHost)).length

/-- `detectCatchAll`: cached answer if present, else probe
`CatchAllProbeCount` random addresses and judge
`acceptCount >= CatchAllProbeCount / 2` (Go integer division), caching
the judgment. -/
def detectCatchAll (cfg : Config) (w : World) (domain : String) (mx : MXRecord) :
    Bool × Effects :=
  match w.catchAllCache domain with
  | some b => (b, {})
  | none =>
    ((decide (cfg.CatchAllProbeCount / 2 ≤ catchAllAcceptCount cfg w domain mx.Exchange)),
     { probes := (List.range cfg.CatchAllProbeCount).map
         (fun i => (probeEmail w domain i, mx.Exchange))
       catchAllWrites :=
         [(domain,
           decide (cfg.CatchAllProbeCount / 2 ≤ catchAllAcceptCount cfg w domain mx.Exchange))] })

/-! ### SMTP verification with retries -/

/-- The retry loop of `verifySMTPWithMX`, by remaining attempts.  With
`MaxRetries = 0` the Go loop body never runs and the zero values
`(0, "", nil)` fall through, which the first equation mirrors.  On an
error that `isRetryableError` rejects the loop breaks; before a retry
(i.e. when attempts remain) the back-off `select` consults
`ctx.Done()` and returns `ctx.Err()` if the context is done.  Every
attempt dials the MX, so each one is logged as a probe. -/
def smtpRetryLoop (w : World) (email mxHost : String) :
    Nat → Except GoError (Nat × String) × List (String × String)
  | 0 => (Except.ok (0, ""), [])
  | n + 1 =>
    match w.smtp email mxHost with
    | Except.ok r => (Except.ok r, [(email, mxHost)])
    | Except.error e =>
      if isRetryableError e = false then (Except.error e, [(email, mxHost)])
      else if n = 0 then (Except.error e, [(email, mxHost)])
      else if w.ctxDone then (Except.error w.ctxErr, [(email, mxHost)])
      else
        ((smtpRetryLoop w email mxHost n).1,
         (email, mxHost) :: (smtpRetryLoop w email mxHost n).2)

/-- The tail of `verifySMTPWithMX` after a successful handshake:
classify, optionally refine by `detectCatchAll` (which rewrites the
verdict to catch-all/`catch_all_domain`/0.5), and build the result with
`IsCatchAll` set from the detector. -/
def verifyClassified (cfg : Config) (w : World) (email domain : String)
    (mx : MXRecord) (smtpCode : Nat) (smtpResponse : String)
    (probes : List (String × String)) : Except GoError ValidationResult × Effects :=
  let c := classifySMTPResponse smtpCode smtpResponse
  if c.1 = ValidationStatus.valid ∧ cfg.EnableCatchAllDetection = true then
    let d := detectCatchAll cfg w domain mx
    if d.1 then
      (Except.ok
        { createResult email (hashEmail w email) domain ValidationStatus.catchAll
            "catch_all_domain" (5/10) smtpCode smtpResponse mx.Exchange [mx] with
          IsCatchAll := true },
       Effects.app { probes := probes } d.2)
    else
      (Except.ok
        { createResult email (hashEmail w email) domain c.1 c.2.1 c.2.2
            smtpCode smtpResponse mx.Exchange [mx] with
          IsCatchAll := false },
       Effects.app { probes := probes } d.2)
  else
    (Except.ok
      (createResult email (hashEmail w email) domain c.1 c.2.1 c.2.2
        smtpCode smtpResponse mx.Exchange [mx]),
     { probes := probes })

/-- `verifySMTPWithMX`: rate-limit gate, handshake with retries,
classification and catch-all refinement. -/
def verifySMTPWithMX (cfg : Config) (w : World) (email domain : String)
    (mx : MXRecord) : Except GoError ValidationResult × Effects :=
  match w.rateLimit domain mx.Exchange with
  | some e => (Except.error e, {})
  | none =>
    match smtpRetryLoop w email mx.Exchange cfg.MaxRetries with
    | (Except.error e, probes) => (Except.error e, { probes := probes })
    | (Except.ok (smtpCode, smtpResponse), probes) =>
      verifyClassified cfg w email domain mx smtpCode smtpResponse probes

/-- The MX loop of `performSMTPVerification`: return the first verdict
whose status is `valid` or `invalid`; any other verdict (including a
catch-all one) falls through to the next MX.  `lastErr` is overwritten
every iteration — by `nil` when the attempt returned a non-deterministic
verdict without error. -/
def mxLoop (cfg : Config) (w : World) (email domain : String) :
    Option GoError → List MXRecord →
    (Option ValidationResult × Option GoError) × Effects
  | lastErr, [] => ((none, lastErr), {})
  | _, mx :: rest =>
    match verifySMTPWithMX cfg w email domain mx with
    | (Except.ok r, eff) =>
      if r.Status = ValidationStatus.valid ∨ r.Status = ValidationStatus.invalid then
        ((some r, none), eff)
      else
        ((mxLoop cfg w email domain none rest).1,
         Effects.app eff (mxLoop cfg w email domain none rest).2)
    | (Except.error e, eff) =>
      ((mxLoop cfg w email domain (some e) rest).1,
       Effects.app eff (mxLoop cfg w email domain (some e) rest).2)

/-- `performSMTPVerification`: the MX loop, falling back to the
`unknown`/`all_mx_failed`/0.2 verdict (paired with `lastErr`) when no
MX produced a deterministic verdict. -/
def performSMTPVerification (cfg : Config) (w : World) (email domain : String)
    (mxRecords : List MXRecord) : (ValidationResult × Option GoError) × Effects :=
  match mxLoop cfg w email domain none mxRecords with
  | ((some r, err), eff) => ((r, err), eff)
  | ((none, err), eff) =>
    ((createResult email (hashEmail w email) domain ValidationStatus.unknown
        "all_mx_failed" (2/10) 0 "" "" mxRecords, err), eff)

/-! ### The verifier facade -/

/-- Steps 4–5 of `Verify`: run `performSMTPVerification`; a reported
error becomes the uncached `unknown`/`smtp_error: …`/0.2 verdict, and
only an error-free outcome is written to the result cache. -/
def verifySMTPPhase (cfg : Config) (w : World) (email emailHash domain : String)
    (mxRecords : List MXRecord) : ValidationResult × Effects :=
  match performSMTPVerification cfg w email domain mxRecords with
  | ((_, some e), eff) =>
    (createResult email emailHash domain ValidationStatus.unknown
      ("smtp_error: " ++ e.msg) (2/10) 0 "" "" mxRecords, eff)
  | ((result, none), eff) =>
    (result, Effects.app eff { resultWrites := [(emailHash, result)] })

/-- Steps 2–4 of `Verify` once the domain is extracted: MX resolution
(any error or an empty answer is `invalid`/`no_mx_records`/0.95), the
disposable-domain short-circuit, then the SMTP phase. -/
def verifyWithDomain (cfg : Config) (w : World) (email emailHash domain : String) :
    ValidationResult × Effects :=
  match getMXRecords w domain with
  | Except.error _ =>
    (createResult email emailHash domain ValidationStatus.invalid
      "no_mx_records" (95/100) 0 "" "" [], {})
  | Except.ok mxRecords =>
    if mxRecords.length = 0 then
      (createResult email emailHash domain ValidationStatus.invalid
        "no_mx_records" (95/100) 0 "" "" [], {})
    else if (w.domainMeta domain).elim false DomainMetadata.IsDisposable then
      (createResult email emailHash domain ValidationStatus.risky
        "disposable_domain" (9/10) 0 "" "" mxRecords, {})
    else
      verifySMTPPhase cfg w email emailHash domain mxRecords

/-- `Verify` on the already-normalised address: hash, result-cache
probe, syntax filter, `strings.Split` at `@`, then the domain pipeline. -/
def VerifyNorm (cfg : Config) (w : World) (email : String) : ValidationResult × Effects :=
  match w.resultCache (hashEmail w email) with
  | some cached => (cached, {})
  | none =>
    if isValidEmailSyntax email = true then
      if (goSplitAt email).length = 2 then
        verifyWithDomain cfg w email (hashEmail w email) ((goSplitAt email).getD 1 "")
      else
        (createResult email (hashEmail w email) "" ValidationStatus.invalid
          "invalid_format" 1 0 "" "" [], {})
    else
      (createResult email (hashEmail w email) "" ValidationStatus.invalid
        "syntax_error" 1 0 "" "" [], {})

/-- `Verify`: normalise (trim + lower-case), then run the pipeline. -/
def Verify (cfg : Config) (w : World) (rawEmail : String) : ValidationResult × Effects :=
  VerifyNorm cfg w (normalizeGo rawEmail)

/-! ### Specification-side definitions (for refinement comparisons) -/

/-- Stable insertion of an MX record behind all records of priority
`≤` its own (spec wording: ties broken by insertion order). -/
def specInsertMX (x : MXRecord) : List MXRecord → List MXRecord
  | [] => [x]
  | y :: ys => if y.Priority ≤ x.Priority then y :: specInsertMX x ys else x :: y :: ys

/-- Stable sort ascending by priority, per the spec's words. -/
def specSortMX (l : List MXRecord) : List MXRecord :=
  l.foldl (fun acc x => specInsertMX x acc) []

/-- Modelled from the spec: "Records are returned sorted ascending by
priority [… ties broken by insertion order]; hostnames are lowercased
and trailing dots stripped."  This is the spec's description of
`resolve`, to be compared with the code's `getMXRecords`. -/
def specResolveMX (raw : List (String × Nat)) : List MXRecord :=
  specSortMX (raw.map (fun m =>
    { Exchange := toLowerGo (trimSuffixDot m.1), Priority := m.2 }))

/-- The verdict coupling invariant of the spec:
`status=valid ⇒ is_catch_all=false` and `status=catch-all ⇒ is_catch_all=true`. -/
def couplingInv (r : ValidationResult) : Prop :=
  (r.Status = ValidationStatus.valid → r.IsCatchAll = false) ∧
  (r.Status = ValidationStatus.catchAll → r.IsCatchAll = true)

/-! ### Concrete worlds and configurations for witnesses and counterexamples -/

/-- A quiet baseline world: empty caches, one MX, an accepting SMTP
endpoint, a live context. -/
def wBase : World :=
  { resultCache := fun _ => none
    mxCache := fun _ => none
    dns := fun _ => Except.ok [("mx.example.com", 10)]
    domainMeta := fun _ => none
    catchAllCache := fun _ => none
    smtp := fun _ _ => Except.ok (250, "Recipient OK")
    rateLimit := fun _ _ => none
    ctxDone := false
    ctxErr := { kind := GoErrKind.deadlineExceeded, msg := "context deadline exceeded" }
    probeLocal := fun i => "probeverify" ++ toString i
    sha256hex := fun s => "#" ++ s }

/-- `wBase` with the domain's catch-all flag cached `true`. -/
def wCatch : World :=
  { wBase with catchAllCache := fun _ => some true }

/-- `wBase` with an expired context: every dial fails with the deadline
error and `ctx.Done()` fires at the back-off. -/
def wDeadline : World :=
  { wBase with
    smtp := fun _ _ =>
      Except.error { kind := GoErrKind.deadlineExceeded
                     msg := "connection failed: context deadline exceeded" }
    ctxDone := true }

/-- `wBase` whose DNS query times out. -/
def wDNSTimeout : World :=
  { wBase with
    dns := fun _ =>
      Except.error { kind := GoErrKind.other
                     msg := "lookup slow.test on 192.0.2.53:53: i/o timeout" } }

/-- `wBase` whose DNS answer has mixed-case hosts, trailing dots, and a
priority tie whose insertion order is B-then-A. -/
def wMixedDNS : World :=
  { wBase with
    dns := fun _ => Except.ok [("MX.B.com.", 2), ("mx.a.com.", 2), ("mx.c.com.", 1)] }

/-- `wBase` with no cached catch-all flag and an SMTP endpoint that
accepts only catch-all probe number 0 and rejects every other address
with 550. -/
def wProbe : World :=
  { wBase with
    smtp := fun e _ =>
      if e = "probeverify0@three.test" then Except.ok (250, "ok")
      else Except.ok (550, "no") }

/-- The default configuration with three catch-all probes. -/
def cfgK3 : Config :=
  { DefaultConfig with CatchAllProbeCount := 3 }

/-- An MX record for the three-probe world. -/
def mxThree : MXRecord :=
  { Exchange := "mx.three.test", Priority := 1 }

/-- A syntactically well-formed address of exactly 300 octets. -/
def longEmail : String :=
  String.mk (List.replicate 295 'a' ++ ('@' :: 'b' :: '.' :: 'c' :: 'o' :: []))

/-! ## Theorems -/

/-- C1: the Classifier maps each SMTP reply code exactly per the spec
table: 250/251 to valid/mailbox_exists/0.98; 550/551/553 to
invalid/mailbox_not_found/0.95; 450/451/452 to
unknown/temporary_failure/0.30; 421 to unknown/rate_limited/0.20; and
any code in 500–549, 552, or 554 and above to invalid with reason
`smtp_error_<code>` and confidence 0.70. -/
theorem c1_classifier_table (code : Nat) (resp : String) :
    ((code = 250 ∨ code = 251) →
      classifySMTPResponse code resp = (ValidationStatus.valid, "mailbox_exists", 98/100)) ∧
    ((code = 550 ∨ code = 551 ∨ code = 553) →
      classifySMTPResponse code resp = (ValidationStatus.invalid, "mailbox_not_found", 95/100)) ∧
    ((code = 450 ∨ code = 451 ∨ code = 452) →
      classifySMTPResponse code resp = (ValidationStatus.unknown, "temporary_failure", 3/10)) ∧
    (code = 421 →
      classifySMTPResponse code resp = (ValidationStatus.unknown, "rate_limited", 2/10)) ∧
    (((500 ≤ code ∧ code ≤ 549) ∨ code = 552 ∨ 554 ≤ code) →
      classifySMTPResponse code resp =
        (ValidationStatus.invalid, "smtp_error_" ++ toString code, 7/10)) := by
  refine ⟨?_, ?_, ?_, ?_, ?_⟩
  · rintro (rfl | rfl) <;> rfl
  · rintro (rfl | rfl | rfl) <;> rfl
  · rintro (rfl | rfl | rfl) <;> rfl
  · rintro rfl; rfl
  · intro h
    unfold classifySMTPResponse
    rw [if_neg (by omega), if_neg (by omega), if_neg (by omega), if_neg (by omega),
      if_pos (by omega)]

/-- Witness for C1 at concrete codes from each row of the table. -/
theorem c1_classifier_table_witness :
    classifySMTPResponse 250 "OK" = (ValidationStatus.valid, "mailbox_exists", 98/100) ∧
    classifySMTPResponse 550 "" = (ValidationStatus.invalid, "mailbox_not_found", 95/100) ∧
    classifySMTPResponse 451 "" = (ValidationStatus.unknown, "temporary_failure", 3/10) ∧
    classifySMTPResponse 421 "" = (ValidationStatus.unknown, "rate_limited", 2/10) ∧
    classifySMTPResponse 552 "" = (ValidationStatus.invalid, "smtp_error_552", 7/10) :=
  ⟨(c1_classifier_table 250 "OK").1 (Or.inl rfl),
   (c1_classifier_table 550 "").2.1 (Or.inl rfl),
   (c1_classifier_table 451 "").2.2.1 (Or.inr (Or.inl rfl)),
   (c1_classifier_table 421 "").2.2.2.1 rfl,
   (c1_classifier_table 552 "").2.2.2.2 (Or.inr (Or.inl rfl))⟩

/-- C6 (evaluation of the code at the failing inputs): with the default
configuration (base 2 s, factor 2) the code computes the back-off
`base·(attempt+1)·factor`, i.e. 4 s before the first retry and 8 s
before the second, not the spec's exponential `base·factor^(k-1)`
(2 s then 4 s); the growth is linear in the attempt index although the
code comments call it exponential back-off. -/
theorem c6_backoff_values :
    retryBackoffNs DefaultConfig 0 = 4000000000 ∧
    retryBackoffNs DefaultConfig 1 = 8000000000 ∧
    retryBackoffNs DefaultConfig 0 ≠ 2000000000 ∧
    retryBackoffNs DefaultConfig 1 ≠ 4000000000 := by
  have h0 : retryBackoffNs DefaultConfig 0 = 4000000000 := by
    unfold retryBackoffNs DefaultConfig
    norm_num
  have h1 : retryBackoffNs DefaultConfig 1 = 8000000000 := by
    unfold retryBackoffNs DefaultConfig
    norm_num
  refine ⟨h0, h1, by rw [h0]; norm_num, by rw [h1]; norm_num⟩

/-- C2 (amended): the Catch-all Detector judges the domain a catch-all
exactly when at least ⌊K/2⌋ (Go integer division, not ⌈K/2⌉) of the K
probes return 250/251; a probe that errors (times out) or draws a 4xx
reply is not counted into the accepting total, and there is no
rejecting total at all. -/
theorem c2_catchall_threshold (cfg : Config) (w : World) (domain : String) (mx : MXRecord)
    (hmiss : w.catchAllCache domain = none) :
    (((detectCatchAll cfg w domain mx).1 = true) ↔
      cfg.CatchAllProbeCount / 2 ≤ catchAllAcceptCount cfg w domain mx.Exchange) ∧
    (∀ i e, w.smtp (probeEmail w domain i) mx.Exchange = Except.error e →
      probeAccepted w domain mx.Exchange i = false) ∧
    (∀ i c rtext, w.smtp (probeEmail w domain i) mx.Exchange = Except.ok (c, rtext) →
      400 ≤ c → c < 500 → probeAccepted w domain mx.Exchange i = false) := by
  refine ⟨?_, ?_, ?_⟩
  · unfold detectCatchAll
    rw [hmiss]
    exact decide_eq_true_iff
  · intro i e he
    unfold probeAccepted
    rw [he]
  · intro i c rtext hok h4 h5
    unfold probeAccepted
    rw [hok]
    exact decide_eq_false (by omega)

/-- Witness for C2 (amended) in the three-probe world. -/
theorem c2_catchall_threshold_witness :
    (((detectCatchAll cfgK3 wProbe "three.test" mxThree).1 = true) ↔
      cfgK3.CatchAllProbeCount / 2 ≤
        catchAllAcceptCount cfgK3 wProbe "three.test" mxThree.Exchange) ∧
    (∀ i e, wProbe.smtp (probeEmail wProbe "three.test" i) mxThree.Exchange = Except.error e →
      probeAccepted wProbe "three.test" mxThree.Exchange i = false) ∧
    (∀ i c rtext,
      wProbe.smtp (probeEmail wProbe "three.test" i) mxThree.Exchange = Except.ok (c, rtext) →
      400 ≤ c → c < 500 → probeAccepted wProbe "three.test" mxThree.Exchange i = false) :=
  c2_catchall_threshold cfgK3 wProbe "three.test" mxThree rfl

/-- C2 is false as stated: with K = 3 configured probes and exactly one
probe answered 250, the code judges the domain a catch-all (its
threshold is ⌊K/2⌋ = 1), whereas the claim's threshold ⌈K/2⌉ = 2 is
not reached. -/
theorem c2_counterexample :
    (detectCatchAll cfgK3 wProbe "three.test" mxThree).1 = true ∧
    catchAllAcceptCount cfgK3 wProbe "three.test" mxThree.Exchange = 1 ∧
    ¬((cfgK3.CatchAllProbeCount + 1) / 2 ≤
      catchAllAcceptCount cfgK3 wProbe "three.test" mxThree.Exchange) := by
  refine ⟨by decide, by decide, by decide⟩

/-- C7 (amended): every MX-resolution failure is mapped alike — a DNS
error of any kind (nxdomain, timeout, …) and an empty MX answer all
produce the `invalid`/`no_mx_records`/0.95 verdict; a DNS timeout is
not distinguished and does not yield `unknown`. -/
theorem c7_resolution_failures (cfg : Config) (w : World)
    (email emailHash domain : String) :
    (∀ e, getMXRecords w domain = Except.error e →
      (verifyWithDomain cfg w email emailHash domain).1 =
        createResult email emailHash domain ValidationStatus.invalid
          "no_mx_records" (95/100) 0 "" "" []) ∧
    (getMXRecords w domain = Except.ok [] →
      (verifyWithDomain cfg w email emailHash domain).1 =
        createResult email emailHash domain ValidationStatus.invalid
          "no_mx_records" (95/100) 0 "" "" []) := by
  constructor
  · intro e he
    unfold verifyWithDomain
    rw [he]
  · intro he
    unfold verifyWithDomain
    rw [he]
    rfl

/-- Witness for C7 (amended): the DNS-timeout world yields the
`no_mx_records` verdict. -/
theorem c7_resolution_failures_witness :
    (verifyWithDomain DefaultConfig wDNSTimeout "user@slow.test" "#user@slow.test"
        "slow.test").1 =
      createResult "user@slow.test" "#user@slow.test" "slow.test"
        ValidationStatus.invalid "no_mx_records" (95/100) 0 "" "" [] :=
  (c7_resolution_failures DefaultConfig wDNSTimeout "user@slow.test" "#user@slow.test"
    "slow.test").1
    { kind := GoErrKind.other, msg := "lookup slow.test on 192.0.2.53:53: i/o timeout" }
    (by decide)

/-- C7 is false as stated: when the MX lookup fails with an i/o timeout,
`Verify` returns status `invalid` (reason `no_mx_records`, confidence
0.95), not the `unknown` status the claim requires for DNS timeouts. -/
theorem c7_counterexample :
    wDNSTimeout.dns "slow.test" =
      Except.error { kind := GoErrKind.other
                     msg := "lookup slow.test on 192.0.2.53:53: i/o timeout" } ∧
    (Verify DefaultConfig wDNSTimeout "user@slow.test").1.Status = ValidationStatus.invalid ∧
    (Verify DefaultConfig wDNSTimeout "user@slow.test").1.Status ≠ ValidationStatus.unknown ∧
    (Verify DefaultConfig wDNSTimeout "user@slow.test").1.Reason = "no_mx_records" ∧
    (Verify DefaultConfig wDNSTimeout "user@slow.test").1.Confidence = 95/100 := by
  refine ⟨rfl, by decide, by decide, by decide, rfl⟩

/-! ### Regex lemmas for C5 -/

/-- Elements of an all-`p` list that is `false` at `a` never count `a`. -/
theorem count_zero_of_all {p : Char → Bool} {l : List Char} {a : Char}
    (h : l.all p = true) (ha : p a = false) : l.count a = 0 := by
  rw [List.count_eq_zero]
  intro hm
  have hpa := List.all_eq_true.mp h a hm
  rw [ha] at hpa
  exact Bool.false_ne_true hpa

/-- The local-part run contains no `@`. -/
theorem count_at_takeWhile_local (l : List Char) :
    (l.takeWhile isLocalChar).count '@' = 0 := by
  rw [List.count_eq_zero]
  intro hm
  have hp := List.mem_takeWhile_imp hm
  exact absurd hp (by decide)

/-- A string matching the domain fragment of the regex contains no `@`. -/
theorem domainPartMatch_count_at (l : List Char) (h : domainPartMatch l = true) :
    l.count '@' = 0 := by
  unfold domainPartMatch at h
  rcases hdrop : l.reverse.dropWhile notDot with _ | ⟨c, before⟩ <;> rw [hdrop] at h
  · exact absurd h (by simp)
  · simp only [Bool.and_eq_true, decide_eq_true_eq] at h
    obtain ⟨⟨⟨⟨hc, _⟩, hdc⟩, _⟩, halpha⟩ := h
    subst hc
    have hsplit : l.reverse = l.reverse.takeWhile notDot ++ ('.' :: before) := by
      rw [← hdrop]
      exact (List.takeWhile_append_dropWhile notDot l.reverse).symm
    have hcount : l.count '@' = (l.reverse).count '@' := (List.count_reverse '@' l).symm
    rw [hcount, hsplit, List.count_append, List.count_cons]
    rw [count_zero_of_all halpha (by decide : Char.isAlpha '@' = false),
      count_zero_of_all hdc (by decide : isDomainChar '@' = false)]
    rfl

/-- An address accepted by the Go regex contains exactly one `@`. -/
theorem emailRegexMatch_one_at (s : String) (h : emailRegexMatch s = true) :
    s.data.count '@' = 1 := by
  unfold emailRegexMatch at h
  rcases hdrop : s.data.dropWhile isLocalChar with _ | ⟨c, rest⟩ <;> rw [hdrop] at h
  · exact absurd h (by simp)
  · simp only [Bool.and_eq_true, decide_eq_true_eq] at h
    obtain ⟨⟨hc, _⟩, hdm⟩ := h
    subst hc
    have hsplit : s.data = s.data.takeWhile isLocalChar ++ ('@' :: rest) := by
      rw [← hdrop]
      exact (List.takeWhile_append_dropWhile isLocalChar s.data).symm
    rw [hsplit, List.count_append, List.count_cons, count_at_takeWhile_local,
      domainPartMatch_count_at rest hdm]
    rfl

set_option maxRecDepth 20000 in
/-- C5 (amended): every address accepted by the Syntax Filter has
exactly one `@` and at most 320 octets (the code's bound, not the
spec's 254); any normalised input longer than 320 octets is rejected;
and on a syntax rejection `Verify` returns the
`invalid`/`syntax_error`/1.0 verdict immediately, with no probes and
no cache writes. -/
theorem c5_syntax_filter :
    (∀ s : String, isValidEmailSyntax s = true →
      s.data.count '@' = 1 ∧ s.utf8ByteSize ≤ 320) ∧
    (∀ s : String, 320 < s.utf8ByteSize → isValidEmailSyntax s = false) ∧
    (∀ (cfg : Config) (w : World) (raw : String),
      w.resultCache (hashEmail w (normalizeGo raw)) = none →
      isValidEmailSyntax (normalizeGo raw) = false →
      Verify cfg w raw =
        (createResult (normalizeGo raw) (hashEmail w (normalizeGo raw)) ""
          ValidationStatus.invalid "syntax_error" 1 0 "" "" [], {})) := by
  refine ⟨?_, ?_, ?_⟩
  · intro s hs
    unfold isValidEmailSyntax at hs
    simp only [Bool.and_eq_true, decide_eq_true_eq] at hs
    exact ⟨emailRegexMatch_one_at s hs.1, hs.2⟩
  · intro s hlen
    unfold isValidEmailSyntax
    rw [decide_eq_false (by omega : ¬ s.utf8ByteSize ≤ 320), Bool.and_false]
  · intro cfg w raw hcache hsyn
    unfold Verify VerifyNorm
    rw [hcache, hsyn]
    rfl

set_option maxRecDepth 20000 in
/-- Witness for C5 (amended) at concrete inputs. -/
theorem c5_syntax_filter_witness :
    ("a@b.co".data.count '@' = 1 ∧ "a@b.co".utf8ByteSize ≤ 320) ∧
    isValidEmailSyntax (String.mk (List.replicate 321 'x')) = false ∧
    Verify DefaultConfig wBase "not an email" =
      (createResult (normalizeGo "not an email") (hashEmail wBase (normalizeGo "not an email")) ""
        ValidationStatus.invalid "syntax_error" 1 0 "" "" [], {}) := by
  refine ⟨c5_syntax_filter.1 "a@b.co" (by decide), ?_, ?_⟩
  · exact c5_syntax_filter.2.1 _ (by decide)
  · exact c5_syntax_filter.2.2 DefaultConfig wBase "not an email" rfl (by decide)

set_option maxRecDepth 20000 in
/-- C5 is false as stated: `longEmail` is 300 octets — more than the
claimed 254-octet ceiling — yet the Syntax Filter accepts it (the
code's bound is 320). -/
theorem c5_counterexample :
    isValidEmailSyntax longEmail = true ∧ 254 < longEmail.utf8ByteSize := by
  constructor
  · decide
  · decide

/-! ### Normalisation lemmas for C10 -/

/-- `Char.ofNat` on a scalar below the surrogate range keeps its value. -/
theorem toNat_ofNat_small {n : Nat} (h : n < 55296) : (Char.ofNat n).toNat = n := by
  have hv : n.isValidChar := Or.inl h
  rw [Char.ofNat, dif_pos hv]
  rfl

/-- Lower-casing an upper-case ASCII letter adds 32 to its scalar. -/
theorem lowerChar_toNat_of_upper {c : Char} (h1 : 65 ≤ c.toNat) (h2 : c.toNat ≤ 90) :
    (lowerChar c).toNat = c.toNat + 32 := by
  unfold lowerChar
  rw [if_pos ⟨h1, h2⟩]
  exact toNat_ofNat_small (by omega)

/-- `lowerChar` fixes everything that is not an upper-case ASCII letter. -/
theorem lowerChar_eq_self {c : Char} (h : ¬(65 ≤ c.toNat ∧ c.toNat ≤ 90)) :
    lowerChar c = c := by
  unfold lowerChar
  rw [if_neg h]

/-- `lowerChar` is idempotent. -/
theorem lowerChar_idem (c : Char) : lowerChar (lowerChar c) = lowerChar c := by
  by_cases h : 65 ≤ c.toNat ∧ c.toNat ≤ 90
  · have ht := lowerChar_toNat_of_upper h.1 h.2
    exact lowerChar_eq_self (by omega)
  · rw [lowerChar_eq_self h]
    exact lowerChar_eq_self h

/-- `lowerChar` preserves whitespace-ness. -/
theorem isSpaceGo_lowerChar (c : Char) : isSpaceGo (lowerChar c) = isSpaceGo c := by
  by_cases h : 65 ≤ c.toNat ∧ c.toNat ≤ 90
  · have ht := lowerChar_toNat_of_upper h.1 h.2
    unfold isSpaceGo
    rw [Bool.eq_iff_iff]
    simp only [Bool.or_eq_true, decide_eq_true_eq]
    omega
  · rw [lowerChar_eq_self h]

/-- `dropWhile isSpaceGo` commutes with lower-casing. -/
theorem dropWhile_map_lowerChar (l : List Char) :
    (l.map lowerChar).dropWhile isSpaceGo = (l.dropWhile isSpaceGo).map lowerChar := by
  induction l with
  | nil => rfl
  | cons c cs ih =>
    simp only [List.map_cons, List.dropWhile_cons, isSpaceGo_lowerChar]
    by_cases h : isSpaceGo c = true
    · simp [h, ih]
    · simp [h]

/-- `dropWhile` is idempotent. -/
theorem dropWhile_idem (p : Char → Bool) (l : List Char) :
    (l.dropWhile p).dropWhile p = l.dropWhile p := by
  induction l with
  | nil => rfl
  | cons c cs ih =>
    rw [List.dropWhile_cons]
    by_cases h : p c = true
    · rw [if_pos h]
      exact ih
    · rw [if_neg h, List.dropWhile_cons, if_neg h]

/-- The head surviving a `dropWhile` falsifies the predicate. -/
theorem dropWhile_head_false {p : Char → Bool} :
    ∀ (l : List Char) (b : Char) (bs : List Char), l.dropWhile p = b :: bs → p b = false := by
  intro l
  induction l with
  | nil => intro b bs h; simp at h
  | cons c cs ih =>
    intro b bs h
    rw [List.dropWhile_cons] at h
    by_cases hc : p c = true
    · rw [if_pos hc] at h
      exact ih b bs h
    · rw [if_neg hc] at h
      cases h
      simpa using hc

/-- `trimSpaceGo` commutes with `toLowerGo`. -/
theorem trim_lower_comm (s : String) :
    trimSpaceGo (toLowerGo s) = toLowerGo (trimSpaceGo s) := by
  unfold trimSpaceGo toLowerGo
  congr 1
  dsimp only
  rw [dropWhile_map_lowerChar, ← List.map_reverse, dropWhile_map_lowerChar,
    ← List.map_reverse]

/-- `toLowerGo` is idempotent. -/
theorem toLowerGo_idem (s : String) : toLowerGo (toLowerGo s) = toLowerGo s := by
  unfold toLowerGo
  congr 1
  dsimp only
  rw [List.map_map]
  have hfun : lowerChar ∘ lowerChar = lowerChar := funext lowerChar_idem
  rw [hfun]

/-- `trimSpaceGo` is idempotent. -/
theorem trimSpaceGo_idem (s : String) : trimSpaceGo (trimSpaceGo s) = trimSpaceGo s := by
  unfold trimSpaceGo
  congr 1
  dsimp only
  set A := s.data.dropWhile isSpaceGo with hA
  set C := A.reverse.dropWhile isSpaceGo with hC
  have hstep1 : C.reverse.dropWhile isSpaceGo = C.reverse := by
    rcases hT : C.reverse with _ | ⟨b, bs⟩
    · rfl
    · have hsuf : C <:+ A.reverse := by
        rw [hC]
        exact List.dropWhile_suffix isSpaceGo
      have hpre : C.reverse <+: A := by
        rw [← List.reverse_suffix]
        simpa using hsuf
      obtain ⟨t, ht⟩ := hpre
      rw [hT] at ht
      have hbA : A = b :: (bs ++ t) := by
        rw [← ht]
        rfl
      have hpb : isSpaceGo b = false := by
        apply dropWhile_head_false s.data b (bs ++ t)
        rw [← hA]
        exact hbA
      rw [List.dropWhile_cons, if_neg (by simp [hpb])]
  rw [hstep1, List.reverse_reverse, hC, dropWhile_idem]

/-- The normalisation of `Verify` is idempotent. -/
theorem normalizeGo_idem (s : String) : normalizeGo (normalizeGo s) = normalizeGo s := by
  unfold normalizeGo
  rw [trim_lower_comm, trimSpaceGo_idem, toLowerGo_idem]

/-- C10: `Verify` is invariant under leading/trailing whitespace and
ASCII letter case of the raw input: the submitted string and its
trimmed, lower-cased form hash to the same cache fingerprint, and under
the same external world `Verify` returns identical verdicts and
effects for both (the wall-clock fields are outside the model). -/
theorem c10_normalization_invariance (cfg : Config) (w : World) (raw : String) :
    hashEmail w (normalizeGo (normalizeGo raw)) = hashEmail w (normalizeGo raw) ∧
    Verify cfg w (normalizeGo raw) = Verify cfg w raw := by
  constructor
  · rw [normalizeGo_idem]
  · unfold Verify
    rw [normalizeGo_idem]

/-! ### Sorting lemmas for C8 -/

/-- `selPass` preserves the length of the remainder. -/
theorem selPass_snd_length (x : MXRecord) (l : List MXRecord) :
    (selPass x l).2.length = l.length := by
  induction l generalizing x with
  | nil => rfl
  | cons y ys ih =>
    unfold selPass
    by_cases h : y.Priority < x.Priority
    · rw [if_pos h]
      simp [ih y]
    · rw [if_neg h]
      simp [ih x]

/-- The element selected by `selPass` has priority at most the
candidate's. -/
theorem selPass_fst_le (x : MXRecord) (l : List MXRecord) :
    (selPass x l).1.Priority ≤ x.Priority := by
  induction l generalizing x with
  | nil => exact le_refl _
  | cons y ys ih =>
    unfold selPass
    by_cases h : y.Priority < x.Priority
    · rw [if_pos h]
      exact le_trans (ih y) (le_of_lt h)
    · rw [if_neg h]
      exact ih x

/-- The element selected by `selPass` has priority at most that of
every record left in the remainder. -/
theorem selPass_fst_le_snd (x : MXRecord) (l : List MXRecord) :
    ∀ z ∈ (selPass x l).2, (selPass x l).1.Priority ≤ z.Priority := by
  induction l generalizing x with
  | nil =>
    intro z hz
    simp [selPass] at hz
  | cons y ys ih =>
    intro z hz
    unfold selPass at hz ⊢
    by_cases h : y.Priority < x.Priority
    · rw [if_pos h] at hz ⊢
      rcases List.mem_cons.mp hz with rfl | hz2
      · exact le_trans (selPass_fst_le y ys) (le_of_lt h)
      · exact ih y z hz2
    · rw [if_neg h] at hz ⊢
      rcases List.mem_cons.mp hz with rfl | hz2
      · exact le_trans (selPass_fst_le x ys) (not_lt.mp h)
      · exact ih x z hz2

/-- `selPass` permutes its input. -/
theorem selPass_perm (x : MXRecord) (l : List MXRecord) :
    ((selPass x l).1 :: (selPass x l).2).Perm (x :: l) := by
  induction l generalizing x with
  | nil => exact List.Perm.refl _
  | cons y ys ih =>
    unfold selPass
    by_cases h : y.Priority < x.Priority
    · rw [if_pos h]
      exact (List.Perm.swap x _ _).trans ((ih y).cons x)
    · rw [if_neg h]
      exact (List.Perm.swap y _ _).trans (((ih x).cons y).trans (List.Perm.swap x y ys))

/-- The fuel-indexed exchange sort permutes its input. -/
theorem sortMXAux_perm :
    ∀ (n : Nat) (l : List MXRecord), l.length ≤ n → (sortMXAux n l).Perm l := by
  intro n
  induction n with
  | zero =>
    intro l hl
    have : l = [] := List.eq_nil_of_length_eq_zero (Nat.le_zero.mp hl)
    subst this
    exact List.Perm.refl _
  | succ n ih =>
    intro l hl
    cases l with
    | nil => exact List.Perm.refl _
    | cons x xs =>
      unfold sortMXAux
      have hlen : (selPass x xs).2.length ≤ n := by
        rw [selPass_snd_length]
        simpa using hl
      exact ((ih _ hlen).cons _).trans (selPass_perm x xs)

/-- The fuel-indexed exchange sort sorts ascending by priority. -/
theorem sortMXAux_sorted :
    ∀ (n : Nat) (l : List MXRecord), l.length ≤ n →
      List.Sorted (fun a b : MXRecord => a.Priority ≤ b.Priority) (sortMXAux n l) := by
  intro n
  induction n with
  | zero =>
    intro l hl
    have : l = [] := List.eq_nil_of_length_eq_zero (Nat.le_zero.mp hl)
    subst this
    exact List.sorted_nil
  | succ n ih =>
    intro l hl
    cases l with
    | nil => exact List.sorted_nil
    | cons x xs =>
      unfold sortMXAux
      have hlen : (selPass x xs).2.length ≤ n := by
        rw [selPass_snd_length]
        simpa using hl
      rw [List.sorted_cons]
      constructor
      · intro b hb
        have hbmem : b ∈ (selPass x xs).2 :=
          ((sortMXAux_perm n _ hlen).mem_iff).mp hb
        exact selPass_fst_le_snd x xs b hbmem
      · exact ih _ hlen

/-- `sortMXRecords` output is a permutation of its input. -/
theorem sortMXRecords_perm (l : List MXRecord) : (sortMXRecords l).Perm l :=
  sortMXAux_perm l.length l (le_refl _)

/-- `sortMXRecords` output is sorted ascending by priority. -/
theorem sortMXRecords_sorted (l : List MXRecord) :
    List.Sorted (fun a b : MXRecord => a.Priority ≤ b.Priority) (sortMXRecords l) :=
  sortMXAux_sorted l.length l (le_refl _)

/-- C8 (amended): on an MX-cache miss, `resolve` returns the DNS answer
with one trailing dot stripped from each exchange (hostnames are NOT
lower-cased), exchange-sorted ascending by priority; the output is a
permutation of the dot-stripped records, but equal-priority records may
be reordered (the exchange sort is not stable, so insertion order is
not preserved on ties). -/
theorem c8_mx_ordering (w : World) (domain : String) (raw : List (String × Nat))
    (hmiss : w.mxCache domain = none) (hdns : w.dns domain = Except.ok raw) :
    getMXRecords w domain =
      Except.ok (sortMXRecords (raw.map (fun m =>
        { Exchange := trimSuffixDot m.1, Priority := m.2 }))) ∧
    List.Sorted (fun a b : MXRecord => a.Priority ≤ b.Priority)
      (sortMXRecords (raw.map (fun m =>
        { Exchange := trimSuffixDot m.1, Priority := m.2 }))) ∧
    (sortMXRecords (raw.map (fun m =>
      { Exchange := trimSuffixDot m.1, Priority := m.2 }))).Perm
      (raw.map (fun m => { Exchange := trimSuffixDot m.1, Priority := m.2 })) := by
  refine ⟨?_, sortMXRecords_sorted _, sortMXRecords_perm _⟩
  unfold getMXRecords
  rw [hmiss]
  unfold lookupMXAndSort
  rw [hdns]

/-- Witness for C8 (amended) on the mixed-case tied DNS answer. -/
theorem c8_mx_ordering_witness :
    getMXRecords wMixedDNS "b.com" =
      Except.ok (sortMXRecords ([("MX.B.com.", 2), ("mx.a.com.", 2), ("mx.c.com.", 1)].map
        (fun m => { Exchange := trimSuffixDot m.1, Priority := m.2 }))) ∧
    List.Sorted (fun a b : MXRecord => a.Priority ≤ b.Priority)
      (sortMXRecords ([("MX.B.com.", 2), ("mx.a.com.", 2), ("mx.c.com.", 1)].map
        (fun m => { Exchange := trimSuffixDot m.1, Priority := m.2 }))) ∧
    (sortMXRecords ([("MX.B.com.", 2), ("mx.a.com.", 2), ("mx.c.com.", 1)].map
      (fun m => { Exchange := trimSuffixDot m.1, Priority := m.2 }))).Perm
      ([("MX.B.com.", 2), ("mx.a.com.", 2), ("mx.c.com.", 1)].map
        (fun m => { Exchange := trimSuffixDot m.1, Priority := m.2 })) :=
  c8_mx_ordering wMixedDNS "b.com" [("MX.B.com.", 2), ("mx.a.com.", 2), ("mx.c.com.", 1)]
    rfl rfl

/-- C8 is false as stated: for the DNS answer
`[MX.B.com. (2), mx.a.com. (2), mx.c.com. (1)]` the code returns
`[mx.c.com (1), mx.a.com (2), MX.B.com (2)]` — the tied records B and A
are swapped out of insertion order and `MX.B.com` keeps its upper case —
while the claimed lower-cased, insertion-ordered result
(`specResolveMX`, built from the spec's words) is
`[mx.c.com (1), mx.b.com (2), mx.a.com (2)]`. -/
theorem c8_counterexample :
    getMXRecords wMixedDNS "b.com" =
      Except.ok [{ Exchange := "mx.c.com", Priority := 1 },
                 { Exchange := "mx.a.com", Priority := 2 },
                 { Exchange := "MX.B.com", Priority := 2 }] ∧
    specResolveMX [("MX.B.com.", 2), ("mx.a.com.", 2), ("mx.c.com.", 1)] =
      [{ Exchange := "mx.c.com", Priority := 1 },
       { Exchange := "mx.b.com", Priority := 2 },
       { Exchange := "mx.a.com", Priority := 2 }] ∧
    getMXRecords wMixedDNS "b.com" ≠
      Except.ok (specResolveMX [("MX.B.com.", 2), ("mx.a.com.", 2), ("mx.c.com.", 1)]) := by
  refine ⟨by decide, by decide, by decide⟩

/-! ### Coupling-invariant lemmas for C9 -/

/-- Any verdict built by `createResult` with a non-catch-all status
satisfies the coupling invariant (its `IsCatchAll` is the zero value). -/
theorem couplingInv_createResult (email emailHash domain : String)
    (status : ValidationStatus) (reason : String) (confidence : ℚ) (smtpCode : Nat)
    (smtpResponse mxHost : String) (mxRecords : List MXRecord)
    (h : status ≠ ValidationStatus.catchAll) :
    couplingInv (createResult email emailHash domain status reason confidence
      smtpCode smtpResponse mxHost mxRecords) :=
  ⟨fun _ => rfl, fun hs => absurd hs h⟩

/-- The classification table never yields the catch-all status. -/
theorem classify_fst_ne_catchAll (code : Nat) (resp : String) :
    (classifySMTPResponse code resp).1 ≠ ValidationStatus.catchAll := by
  unfold classifySMTPResponse
  split_ifs <;> simp

/-- The post-handshake stage only emits verdicts satisfying the
coupling invariant. -/
theorem verifyClassified_inv (cfg : Config) (w : World) (email domain : String)
    (mx : MXRecord) (code : Nat) (resp : String) (probes : List (String × String))
    (r : ValidationResult) (eff : Effects)
    (h : verifyClassified cfg w email domain mx code resp probes = (Except.ok r, eff)) :
    couplingInv r := by
  simp only [verifyClassified] at h
  by_cases hc : (classifySMTPResponse code resp).1 = ValidationStatus.valid ∧
      cfg.EnableCatchAllDetection = true
  · rw [if_pos hc] at h
    by_cases hd : (detectCatchAll cfg w domain mx).1 = true
    · rw [if_pos hd] at h
      simp only [Prod.mk.injEq, Except.ok.injEq] at h
      obtain ⟨hr, -⟩ := h
      subst hr
      exact ⟨(fun hs => nomatch hs), (fun _ => rfl)⟩
    · rw [if_neg hd] at h
      simp only [Prod.mk.injEq, Except.ok.injEq] at h
      obtain ⟨hr, -⟩ := h
      subst hr
      exact ⟨fun _ => rfl, fun hs => absurd hs (classify_fst_ne_catchAll code resp)⟩
  · rw [if_neg hc] at h
    simp only [Prod.mk.injEq, Except.ok.injEq] at h
    obtain ⟨hr, -⟩ := h
    subst hr
    exact couplingInv_createResult _ _ _ _ _ _ _ _ _ _
      (classify_fst_ne_catchAll code resp)

/-- Per-MX verification only emits verdicts satisfying the coupling
invariant. -/
theorem verifySMTPWithMX_inv (cfg : Config) (w : World) (email domain : String)
    (mx : MXRecord) (r : ValidationResult) (eff : Effects)
    (h : verifySMTPWithMX cfg w email domain mx = (Except.ok r, eff)) :
    couplingInv r := by
  unfold verifySMTPWithMX at h
  rcases hrl : w.rateLimit domain mx.Exchange with _ | e
  · rw [hrl] at h
    rcases hp : smtpRetryLoop w email mx.Exchange cfg.MaxRetries with ⟨res, probes⟩
    rw [hp] at h
    cases res with
    | error e2 => simp at h
    | ok pr =>
      rcases pr with ⟨code, resp⟩
      dsimp only at h
      exact verifyClassified_inv cfg w email domain mx code resp probes r eff h
  · rw [hrl] at h
    simp at h

/-- The MX loop only hands back verdicts satisfying the coupling
invariant. -/
theorem mxLoop_inv (cfg : Config) (w : World) (email domain : String) :
    ∀ (mxs : List MXRecord) (lastErr : Option GoError) (r : ValidationResult)
      (err : Option GoError),
      (mxLoop cfg w email domain lastErr mxs).1 = (some r, err) → couplingInv r := by
  intro mxs
  induction mxs with
  | nil =>
    intro lastErr r err h
    simp [mxLoop] at h
  | cons mx rest ih =>
    intro lastErr r err h
    unfold mxLoop at h
    rcases hv : verifySMTPWithMX cfg w email domain mx with ⟨res, effv⟩
    rw [hv] at h
    cases res with
    | ok rr =>
      dsimp only at h
      by_cases hd : rr.Status = ValidationStatus.valid ∨
          rr.Status = ValidationStatus.invalid
      · rw [if_pos hd] at h
        simp only [Prod.mk.injEq, Option.some.injEq] at h
        obtain ⟨h1, -⟩ := h
        subst h1
        exact verifySMTPWithMX_inv cfg w email domain mx _ effv hv
      · rw [if_neg hd] at h
        exact ih none r err h
    | error e =>
      dsimp only at h
      exact ih (some e) r err h

/-- `performSMTPVerification` only produces verdicts satisfying the
coupling invariant. -/
theorem performSMTP_inv (cfg : Config) (w : World) (email domain : String)
    (mxs : List MXRecord) :
    couplingInv (performSMTPVerification cfg w email domain mxs).1.1 := by
  unfold performSMTPVerification
  rcases hm : mxLoop cfg w email domain none mxs with ⟨⟨or, e2⟩, eff2⟩
  cases or with
  | some rr =>
    exact mxLoop_inv cfg w email domain mxs none rr e2 (by rw [hm])
  | none =>
    exact ⟨(fun hs => nomatch hs), (fun hs => nomatch hs)⟩

/-- The SMTP phase of the facade preserves the coupling invariant. -/
theorem verifySMTPPhase_inv (cfg : Config) (w : World)
    (email emailHash domain : String) (mxs : List MXRecord) :
    couplingInv (verifySMTPPhase cfg w email emailHash domain mxs).1 := by
  unfold verifySMTPPhase
  rcases hp : performSMTPVerification cfg w email domain mxs with ⟨⟨r, err⟩, eff⟩
  cases err with
  | some e =>
    exact ⟨(fun hs => nomatch hs), (fun hs => nomatch hs)⟩
  | none =>
    have h1 := performSMTP_inv cfg w email domain mxs
    rw [hp] at h1
    exact h1

/-- The domain pipeline of the facade preserves the coupling invariant. -/
theorem verifyWithDomain_inv (cfg : Config) (w : World)
    (email emailHash domain : String) :
    couplingInv (verifyWithDomain cfg w email emailHash domain).1 := by
  unfold verifyWithDomain
  rcases hmx : getMXRecords w domain with e | mxs
  · exact ⟨(fun hs => nomatch hs), (fun hs => nomatch hs)⟩
  · dsimp only
    by_cases hlen : mxs.length = 0
    · rw [if_pos hlen]
      exact ⟨(fun hs => nomatch hs), (fun hs => nomatch hs)⟩
    · rw [if_neg hlen]
      by_cases hdisp : (w.domainMeta domain).elim false DomainMetadata.IsDisposable = true
      · rw [if_pos hdisp]
        exact ⟨(fun hs => nomatch hs), (fun hs => nomatch hs)⟩
      · rw [if_neg hdisp]
        exact verifySMTPPhase_inv cfg w email emailHash domain mxs

/-- C9: every verdict `Verify` returns satisfies the coupling invariant
`status=valid ⇒ is_catch_all=false` and `status=catch-all ⇒
is_catch_all=true`, provided the result-cache entries (which the system
itself only ever populates with `Verify` verdicts) satisfy it. -/
theorem c9_coupling_invariant (cfg : Config) (w : World) (raw : String)
    (hcache : ∀ k r, w.resultCache k = some r → couplingInv r) :
    couplingInv (Verify cfg w raw).1 := by
  unfold Verify VerifyNorm
  rcases hc : w.resultCache (hashEmail w (normalizeGo raw)) with _ | cached
  · dsimp only
    by_cases hs : isValidEmailSyntax (normalizeGo raw) = true
    · rw [if_pos hs]
      by_cases hl : (goSplitAt (normalizeGo raw)).length = 2
      · rw [if_pos hl]
        exact verifyWithDomain_inv _ _ _ _ _
      · rw [if_neg hl]
        exact ⟨(fun hst => nomatch hst), (fun hst => nomatch hst)⟩
    · rw [if_neg hs]
      exact ⟨(fun hst => nomatch hst), (fun hst => nomatch hst)⟩
  · exact hcache _ cached hc

/-- Witness for C9 on an empty cache and a concrete address. -/
theorem c9_coupling_invariant_witness :
    couplingInv (Verify DefaultConfig wBase "user@example.com").1 :=
  c9_coupling_invariant DefaultConfig wBase "user@example.com"
    (fun _ _ h => Option.noConfusion h)

/-! ### Result-cache write lemmas for C4 -/

/-- The catch-all detector never writes to the result cache. -/
theorem detectCatchAll_resultWrites (cfg : Config) (w : World) (domain : String)
    (mx : MXRecord) : (detectCatchAll cfg w domain mx).2.resultWrites = [] := by
  unfold detectCatchAll
  rcases w.catchAllCache domain with _ | b <;> rfl

/-- The post-handshake stage never writes to the result cache. -/
theorem verifyClassified_resultWrites (cfg : Config) (w : World) (email domain : String)
    (mx : MXRecord) (code : Nat) (resp : String) (probes : List (String × String)) :
    (verifyClassified cfg w email domain mx code resp probes).2.resultWrites = [] := by
  simp only [verifyClassified]
  split_ifs <;> simp [Effects.app, detectCatchAll_resultWrites]

/-- Per-MX verification never writes to the result cache. -/
theorem verifySMTPWithMX_resultWrites (cfg : Config) (w : World) (email domain : String)
    (mx : MXRecord) : (verifySMTPWithMX cfg w email domain mx).2.resultWrites = [] := by
  unfold verifySMTPWithMX
  rcases w.rateLimit domain mx.Exchange with _ | e
  · rcases hp : smtpRetryLoop w email mx.Exchange cfg.MaxRetries with ⟨res, probes⟩
    cases res with
    | error e2 => rfl
    | ok pr =>
      rcases pr with ⟨code, resp⟩
      exact verifyClassified_resultWrites cfg w email domain mx code resp probes
  · rfl

/-- The MX loop never writes to the result cache. -/
theorem mxLoop_resultWrites (cfg : Config) (w : World) (email domain : String) :
    ∀ (mxs : List MXRecord) (lastErr : Option GoError),
      (mxLoop cfg w email domain lastErr mxs).2.resultWrites = [] := by
  intro mxs
  induction mxs with
  | nil =>
    intro lastErr
    rfl
  | cons mx rest ih =>
    intro lastErr
    unfold mxLoop
    rcases hv : verifySMTPWithMX cfg w email domain mx with ⟨res, effv⟩
    have h1 := verifySMTPWithMX_resultWrites cfg w email domain mx
    rw [hv] at h1
    cases res with
    | ok rr =>
      dsimp only
      by_cases hd : rr.Status = ValidationStatus.valid ∨
          rr.Status = ValidationStatus.invalid
      · rw [if_pos hd]
        exact h1
      · rw [if_neg hd]
        have h2 : effv.resultWrites = [] := h1
        simp [Effects.app, h2, ih]
    | error e =>
      dsimp only
      have h2 : effv.resultWrites = [] := h1
      simp [Effects.app, h2, ih]

/-- `performSMTPVerification` never writes to the result cache. -/
theorem performSMTP_resultWrites (cfg : Config) (w : World) (email domain : String)
    (mxs : List MXRecord) :
    (performSMTPVerification cfg w email domain mxs).2.resultWrites = [] := by
  unfold performSMTPVerification
  rcases hm : mxLoop cfg w email domain none mxs with ⟨⟨or, e2⟩, eff2⟩
  have h1 := mxLoop_resultWrites cfg w email domain mxs none
  rw [hm] at h1
  cases or with
  | some rr => exact h1
  | none => exact h1

/-- C4 (amended): when the SMTP phase reports an error (which is how an
exhausted deadline or cancellation surfaces), the facade returns status
`unknown` — never `invalid` — with reason `smtp_error: <message>` and
confidence 0.20 (not `deadline_exceeded`/0.10), and nothing is written
to the Result Cache. -/
theorem c4_deadline_verdict (cfg : Config) (w : World)
    (email emailHash domain : String) (mxRecords : List MXRecord) (e : GoError)
    (h : (performSMTPVerification cfg w email domain mxRecords).1.2 = some e) :
    (verifySMTPPhase cfg w email emailHash domain mxRecords).1.Status =
        ValidationStatus.unknown ∧
    (verifySMTPPhase cfg w email emailHash domain mxRecords).1.Status ≠
        ValidationStatus.invalid ∧
    (verifySMTPPhase cfg w email emailHash domain mxRecords).1.Reason =
        "smtp_error: " ++ e.msg ∧
    (verifySMTPPhase cfg w email emailHash domain mxRecords).1.Confidence = 2/10 ∧
    (verifySMTPPhase cfg w email emailHash domain mxRecords).2.resultWrites = [] := by
  unfold verifySMTPPhase
  rcases hp : performSMTPVerification cfg w email domain mxRecords with ⟨⟨r, err⟩, eff⟩
  rw [hp] at h
  have herr : err = some e := h
  subst herr
  refine ⟨rfl, (fun hs => nomatch hs), rfl, rfl, ?_⟩
  have h1 := performSMTP_resultWrites cfg w email domain mxRecords
  rw [hp] at h1
  exact h1

/-- Witness for C4 (amended) in the expired-context world. -/
theorem c4_deadline_verdict_witness :
    (verifySMTPPhase DefaultConfig wDeadline "user@timeout.test" "#user@timeout.test"
        "timeout.test" [{ Exchange := "mx.example.com", Priority := 10 }]).1.Status =
        ValidationStatus.unknown ∧
    (verifySMTPPhase DefaultConfig wDeadline "user@timeout.test" "#user@timeout.test"
        "timeout.test" [{ Exchange := "mx.example.com", Priority := 10 }]).1.Status ≠
        ValidationStatus.invalid ∧
    (verifySMTPPhase DefaultConfig wDeadline "user@timeout.test" "#user@timeout.test"
        "timeout.test" [{ Exchange := "mx.example.com", Priority := 10 }]).1.Reason =
        "smtp_error: " ++
          (GoError.mk GoErrKind.deadlineExceeded "context deadline exceeded").msg ∧
    (verifySMTPPhase DefaultConfig wDeadline "user@timeout.test" "#user@timeout.test"
        "timeout.test" [{ Exchange := "mx.example.com", Priority := 10 }]).1.Confidence =
        2/10 ∧
    (verifySMTPPhase DefaultConfig wDeadline "user@timeout.test" "#user@timeout.test"
        "timeout.test" [{ Exchange := "mx.example.com", Priority := 10 }]).2.resultWrites =
        [] :=
  c4_deadline_verdict DefaultConfig wDeadline "user@timeout.test" "#user@timeout.test"
    "timeout.test" [{ Exchange := "mx.example.com", Priority := 10 }]
    (GoError.mk GoErrKind.deadlineExceeded "context deadline exceeded") (by decide)

/-- C4 is false as stated: a verification whose context expires returns
reason `smtp_error: context deadline exceeded` with confidence 0.20 —
not `deadline_exceeded` with 0.10 — though its status is indeed
`unknown` (not `invalid`) and nothing reaches the Result Cache. -/
theorem c4_counterexample :
    (Verify DefaultConfig wDeadline "user@timeout.test").1.Status =
        ValidationStatus.unknown ∧
    (Verify DefaultConfig wDeadline "user@timeout.test").1.Reason =
        "smtp_error: context deadline exceeded" ∧
    (Verify DefaultConfig wDeadline "user@timeout.test").1.Reason ≠
        "deadline_exceeded" ∧
    (Verify DefaultConfig wDeadline "user@timeout.test").1.Confidence = 2/10 ∧
    ((2 : ℚ)/10 ≠ 1/10) ∧
    (Verify DefaultConfig wDeadline "user@timeout.test").2.resultWrites = [] := by
  refine ⟨by decide, by decide, by decide, rfl, by norm_num, by decide⟩

/-! ### C3: cached catch-all flag behaviour -/

/-- C3 (amended): even when the domain's catch-all flag is cached
`true`, the per-MX verification still issues the SMTP probe of the
submitted address first; on a 250/251 reply it builds the
catch-all/`catch_all_domain`/0.50 verdict — but the MX loop of the
facade only returns `valid`/`invalid` verdicts, so this verdict is
discarded and the facade's SMTP phase produces
`unknown`/`all_mx_failed`/0.20 instead. -/
theorem c3_cached_catchall (cfg : Config) (w : World) (email domain : String)
    (mx : MXRecord) (code : Nat) (resp : String)
    (hca : w.catchAllCache domain = some true)
    (hrl : w.rateLimit domain mx.Exchange = none)
    (hsm : w.smtp email mx.Exchange = Except.ok (code, resp))
    (hcode : code = 250 ∨ code = 251)
    (hen : cfg.EnableCatchAllDetection = true)
    (hmr : 0 < cfg.MaxRetries) :
    verifySMTPWithMX cfg w email domain mx =
      (Except.ok { createResult email (hashEmail w email) domain
          ValidationStatus.catchAll "catch_all_domain" (5/10) code resp
          mx.Exchange [mx] with IsCatchAll := true },
       { probes := [(email, mx.Exchange)] }) ∧
    (performSMTPVerification cfg w email domain [mx]).1.1.Status =
        ValidationStatus.unknown ∧
    (performSMTPVerification cfg w email domain [mx]).1.1.Reason = "all_mx_failed" ∧
    (performSMTPVerification cfg w email domain [mx]).1.1.Confidence = 2/10 := by
  have hloop : smtpRetryLoop w email mx.Exchange cfg.MaxRetries =
      (Except.ok (code, resp), [(email, mx.Exchange)]) := by
    rcases hn : cfg.MaxRetries with _ | n
    · omega
    · unfold smtpRetryLoop
      rw [hsm]
  have hcl : classifySMTPResponse code resp =
      (ValidationStatus.valid, "mailbox_exists", 98/100) := by
    rcases hcode with rfl | rfl <;> rfl
  have hdet : detectCatchAll cfg w domain mx = (true, {}) := by
    unfold detectCatchAll
    rw [hca]
  have hv : verifySMTPWithMX cfg w email domain mx =
      (Except.ok { createResult email (hashEmail w email) domain
          ValidationStatus.catchAll "catch_all_domain" (5/10) code resp
          mx.Exchange [mx] with IsCatchAll := true },
       { probes := [(email, mx.Exchange)] }) := by
    unfold verifySMTPWithMX
    rw [hrl, hloop]
    show verifyClassified cfg w email domain mx code resp [(email, mx.Exchange)] = _
    simp only [verifyClassified]
    rw [hcl, if_pos ⟨rfl, hen⟩, hdet, if_pos rfl]
    simp [Effects.app]
  have hml : (mxLoop cfg w email domain none [mx]).1 = (none, none) := by
    unfold mxLoop
    rw [hv]
    dsimp only
    rw [if_neg (fun hh => hh.elim (fun h2 => nomatch h2) (fun h2 => nomatch h2))]
    rfl
  have hperf : (performSMTPVerification cfg w email domain [mx]).1.1 =
      createResult email (hashEmail w email) domain ValidationStatus.unknown
        "all_mx_failed" (2/10) 0 "" "" [mx] := by
    unfold performSMTPVerification
    rcases hm : mxLoop cfg w email domain none [mx] with ⟨⟨or, e2⟩, eff2⟩
    rw [hm] at hml
    have h1 : or = none := congrArg Prod.fst hml
    subst h1
    rfl
  exact ⟨hv, by rw [hperf]; rfl, by rw [hperf]; rfl, by rw [hperf]; rfl⟩

/-- Witness for C3 (amended) in the cached-catch-all world. -/
theorem c3_cached_catchall_witness :
    verifySMTPWithMX DefaultConfig wCatch "user@example.com" "example.com"
        { Exchange := "mx.example.com", Priority := 10 } =
      (Except.ok { createResult "user@example.com"
          (hashEmail wCatch "user@example.com") "example.com"
          ValidationStatus.catchAll "catch_all_domain" (5/10) 250 "Recipient OK"
          ({ Exchange := "mx.example.com", Priority := 10 } : MXRecord).Exchange
          [{ Exchange := "mx.example.com", Priority := 10 }] with IsCatchAll := true },
       { probes := [("user@example.com",
          ({ Exchange := "mx.example.com", Priority := 10 } : MXRecord).Exchange)] }) ∧
    (performSMTPVerification DefaultConfig wCatch "user@example.com" "example.com"
        [{ Exchange := "mx.example.com", Priority := 10 }]).1.1.Status =
        ValidationStatus.unknown ∧
    (performSMTPVerification DefaultConfig wCatch "user@example.com" "example.com"
        [{ Exchange := "mx.example.com", Priority := 10 }]).1.1.Reason =
        "all_mx_failed" ∧
    (performSMTPVerification DefaultConfig wCatch "user@example.com" "example.com"
        [{ Exchange := "mx.example.com", Priority := 10 }]).1.1.Confidence = 2/10 :=
  c3_cached_catchall DefaultConfig wCatch "user@example.com" "example.com"
    { Exchange := "mx.example.com", Priority := 10 } 250 "Recipient OK"
    rfl rfl rfl (Or.inl rfl) rfl (by decide)

/-- C3 is false as stated: with the catch-all flag cached `true`,
`Verify` still probes the submitted address over SMTP, and the verdict
it returns is `unknown`/`all_mx_failed`/0.20 — not
catch-all/`catch_all_domain`/0.50 — because the MX loop discards
non-deterministic verdicts. -/
theorem c3_counterexample :
    wCatch.catchAllCache "example.com" = some true ∧
    (Verify DefaultConfig wCatch "user@example.com").2.probes =
      [("user@example.com", "mx.example.com")] ∧
    (Verify DefaultConfig wCatch "user@example.com").1.Status ≠
        ValidationStatus.catchAll ∧
    (Verify DefaultConfig wCatch "user@example.com").1.Status =
        ValidationStatus.unknown ∧
    (Verify DefaultConfig wCatch "user@example.com").1.Reason = "all_mx_failed" ∧
    (Verify DefaultConfig wCatch "user@example.com").1.Confidence = 2/10 ∧
    ((2 : ℚ)/10 ≠ 5/10) := by
  refine ⟨rfl, by decide, by decide, by decide, by decide, rfl, by norm_num⟩

end MailSorter
